import Mathlib

/-!
Shallow embedding of the color-rs library (channel normalization and the
XYZ / Yxy / Lab color-space conversions), with the canonical float domain
embedded as exact rationals.  Machine integers are embedded as `Int` with
explicit bounds; the Rust `as` cast from float to integer truncates toward
zero and saturates at the target type's bounds.
-/

namespace ColorRs

/-- Truncation toward zero of a rational number, the rounding used by Rust
float-to-integer `as` casts. -/
def truncRat (q : ℚ) : ℤ := if 0 ≤ q then ⌊q⌋ else ⌈q⌉

/-- Rust float-to-integer `as` cast: truncate toward zero, then saturate to
the target type's `[lo, hi]` range. -/
def satCast (lo hi : ℤ) (q : ℚ) : ℤ := max lo (min hi (truncRat q))

/-- An integer channel type, described by the bounds of the Rust integer type
(`src/channels.rs`, `impl_channel!`).  The paired float type is embedded as
exact rationals, so the pairing width does not appear. -/
structure IntChannel where
  min : ℤ
  max : ℤ
deriving DecidableEq

def u8 : IntChannel := ⟨0, 255⟩

def u16 : IntChannel := ⟨0, 65535⟩

def u32 : IntChannel := ⟨0, 4294967295⟩

def u64 : IntChannel := ⟨0, 18446744073709551615⟩

def i8 : IntChannel := ⟨-128, 127⟩

def i16 : IntChannel := ⟨-32768, 32767⟩

def i32 : IntChannel := ⟨-2147483648, 2147483647⟩

def i64 : IntChannel := ⟨-9223372036854775808, 9223372036854775807⟩

/-- `usize`, modelled as a 64-bit word. -/
def usize : IntChannel := u64

/-- `isize`, modelled as a 64-bit word. -/
def isize : IntChannel := i64

/-- The integer channel types given `impl Channel` by `impl_channel!` in
`src/channels.rs`. -/
def builtinIntChannels : List IntChannel :=
  [u8, u16, u32, u64, i8, i16, i32, i64, usize, isize]

/-- `src/channels.rs`, `impl_channel!`:
`fn into_float(self) -> $f { self as $f * <$t>::max_value() as $f }`. -/
def IntChannel.into_float (T : IntChannel) (v : ℤ) : ℚ := (v : ℚ) * (T.max : ℚ)

/-- `src/channels.rs`, `impl_channel!`:
`fn from_float(f: $f) -> $t { (f / <$t>::max_value() as $f) as $t }`. -/
def IntChannel.from_float (T : IntChannel) (f : ℚ) : ℤ :=
  satCast T.min T.max (f / (T.max : ℚ))

/-- `src/channels.rs`, `impl Channel for f32`: `into_float` is the identity. -/
def f32_into_float (v : ℚ) : ℚ := v

/-- `src/channels.rs`, `impl Channel for f32`: `from_float` is the identity. -/
def f32_from_float (f : ℚ) : ℚ := f

/-- `src/channels.rs`, `impl Channel for f64`: `into_float` is the identity. -/
def f64_into_float (v : ℚ) : ℚ := v

/-- `src/channels.rs`, `impl Channel for f64`: `from_float` is the identity. -/
def f64_from_float (f : ℚ) : ℚ := f

/-- Rational embedding of the Rust float `is_normal` predicate: the rationals
carry no NaN, infinite or subnormal values, so the only excluded class that is
representable is zero. -/
def isNormal (q : ℚ) : Bool := q != 0

/-- An XYZ color with float channels (`src/spaces/xyz.rs`); the white-point tag
is a zero-size phantom and does not appear in the data. -/
structure Xyz where
  x : ℚ
  y : ℚ
  z : ℚ
deriving DecidableEq

/-- A Yxy color with float channels (`src/spaces/yxy.rs`). -/
structure Yxy where
  x : ℚ
  y : ℚ
  luma : ℚ
deriving DecidableEq

/-- A Lab color with float channels (`src/spaces/lab.rs`). -/
structure Lab where
  l : ℚ
  a : ℚ
  b : ℚ
deriving DecidableEq

/-- `src/spaces/xyz.rs`, `impl From<Yxy<C, Wp>> for Xyz<C, Wp>` at a float
channel type (where `into_float` / `from_float` on the whole color are the
identity): start from `Xyz::raw(0, luma, 0)` and overwrite x and z only when
`y.is_normal()`. -/
def xyzFromYxy (yxy : Yxy) : Xyz :=
  if isNormal yxy.y then
    { x := yxy.luma * yxy.x / yxy.y
      y := yxy.luma
      z := yxy.luma * (1 - yxy.x - yxy.y) / yxy.y }
  else
    { x := 0, y := yxy.luma, z := 0 }

/-- `src/spaces/yxy.rs`: `xyz.channels().iter().map(into_float).fold(0, +)`,
at a float channel type. -/
def xyzSum (xyz : Xyz) : ℚ := ((0 + xyz.x) + xyz.y) + xyz.z

/-- `src/spaces/yxy.rs`, `impl From<Xyz<C, Wp>> for Yxy<C, Wp>` at a float
channel type: start from `Yxy::with_wp(0, 0, xyz.y)` and overwrite x and y only
when `sum.is_normal()`. -/
def yxyFromXyz (xyz : Xyz) : Yxy :=
  if isNormal (xyzSum xyz) then
    { x := xyz.x / xyzSum xyz, y := xyz.y / xyzSum xyz, luma := xyz.y }
  else
    { x := 0, y := 0, luma := xyz.y }

/-- `src/spaces/lab.rs`, `impl Default for Lab`: `unimplemented!()`, modelled
as an unconditional failure. -/
def labDefault : Option Lab := none

/-- `src/spaces/lab.rs`, `impl From<Xyz> for Lab`: `unimplemented!()`. -/
def labFromXyz (_xyz : Xyz) : Option Lab := none

/-- `src/spaces/lab.rs`, `impl From<Yxy> for Lab`: `unimplemented!()`. -/
def labFromYxy (_yxy : Yxy) : Option Lab := none

/-- A white point: the three XYZ tristimulus constants stored as float
literals by `declare_whitepoints!` in `src/white_point.rs`. -/
structure WhitePointData where
  x : ℚ
  y : ℚ
  z : ℚ
deriving DecidableEq

/-- `src/white_point.rs`, `fn get_xyz() -> Xyz<C, Self>` at channel type f64:
`C::from(lit).unwrap()` is the identity cast, so the stored constants are
returned as-is. -/
def WhitePointData.get_xyz (wp : WhitePointData) : Xyz := ⟨wp.x, wp.y, wp.z⟩

namespace WhitePoints

def A : WhitePointData := ⟨1.09850, 1.0, 0.35585⟩

def B : WhitePointData := ⟨0.99072, 1.0, 0.85223⟩

def C : WhitePointData := ⟨0.98074, 1.0, 1.18232⟩

def D50 : WhitePointData := ⟨0.96422, 1.0, 0.82521⟩

def D55 : WhitePointData := ⟨0.95682, 1.0, 0.92149⟩

def D65 : WhitePointData := ⟨0.95047, 1.0, 1.08883⟩

def D75 : WhitePointData := ⟨0.94972, 1.0, 1.22638⟩

def E : WhitePointData := ⟨1.0, 1.0, 1.0⟩

def F2 : WhitePointData := ⟨0.99186, 1.0, 0.67393⟩

def F7 : WhitePointData := ⟨0.95041, 1.0, 1.08747⟩

def F11 : WhitePointData := ⟨1.00962, 1.0, 0.64350⟩

def D50Degree10 : WhitePointData := ⟨0.9672, 1.0, 0.8143⟩

def D55Degree10 : WhitePointData := ⟨0.958, 1.0, 0.9093⟩

def D65Degree10 : WhitePointData := ⟨0.9481, 1.0, 1.073⟩

def D75Degree10 : WhitePointData := ⟨0.94416, 1.0, 1.2064⟩

end WhitePoints

/-- All illuminants declared by `declare_whitepoints!` in
`src/white_point.rs`, including the 10-degree-observer D-series. -/
def declaredWhitePoints : List WhitePointData :=
  [WhitePoints.A, WhitePoints.B, WhitePoints.C, WhitePoints.D50,
   WhitePoints.D55, WhitePoints.D65, WhitePoints.D75, WhitePoints.E,
   WhitePoints.F2, WhitePoints.F7, WhitePoints.F11,
   WhitePoints.D50Degree10, WhitePoints.D55Degree10,
   WhitePoints.D65Degree10, WhitePoints.D75Degree10]

/-- `src/spaces/xyz.rs`, `impl Default for Xyz`:
`Xyz::with_wp(C::zero(), C::zero(), C::zero())`. -/
def xyzDefault : Xyz := ⟨0, 0, 0⟩

/-- `src/spaces/yxy.rs`, `impl Default for Yxy` at a float channel type:
take x and y from `Yxy::from(Wp::get_xyz())` and set luma to `C::zero()`. -/
def yxyDefault (wp : WhitePointData) : Yxy :=
  let c := yxyFromXyz wp.get_xyz
  ⟨c.x, c.y, 0⟩

/-- An XYZ color whose channels are an integer channel type. -/
structure XyzI where
  x : ℤ
  y : ℤ
  z : ℤ
deriving DecidableEq

/-- A Yxy color whose channels are an integer channel type. -/
structure YxyI where
  x : ℤ
  y : ℤ
  luma : ℤ
deriving DecidableEq

/-- num-traits `NumCast::from::<f64>` into an integer type, as used by
`C::from($x)` in `src/white_point.rs`: truncate toward zero and return `None`
when the truncated value is out of the target range. -/
def numCast (T : IntChannel) (q : ℚ) : Option ℤ :=
  let t := truncRat q
  if T.min ≤ t ∧ t ≤ T.max then some t else none

/-- `src/white_point.rs`, `fn get_xyz()` at an integer channel type: each
stored constant passes through `C::from(lit).unwrap()`; `none` models the
`unwrap` panic on an out-of-range constant. -/
def getXyzI (T : IntChannel) (wp : WhitePointData) : Option XyzI := do
  let x ← numCast T wp.x
  let y ← numCast T wp.y
  let z ← numCast T wp.z
  pure ⟨x, y, z⟩

/-- The channel fold of `src/spaces/yxy.rs` at an integer channel type. -/
def xyzSumI (T : IntChannel) (c : XyzI) : ℚ :=
  ((0 + T.into_float c.x) + T.into_float c.y) + T.into_float c.z

/-- `src/spaces/yxy.rs`, `impl From<Xyz> for Yxy` at an integer channel
type: x and y pass through `Channel::from_float`, luma is carried as the raw
channel value. -/
def yxyFromXyzI (T : IntChannel) (c : XyzI) : YxyI :=
  let sum := xyzSumI T c
  if isNormal sum then
    { x := T.from_float (T.into_float c.x / sum)
      y := T.from_float (T.into_float c.y / sum)
      luma := c.y }
  else
    { x := 0, y := 0, luma := c.y }

/-- `src/spaces/yxy.rs`, `impl Default for Yxy` at an integer channel type. -/
def yxyDefaultI (T : IntChannel) (wp : WhitePointData) : Option YxyI :=
  (getXyzI T wp).map fun c0 =>
    let c := yxyFromXyzI T c0
    ⟨c.x, c.y, 0⟩

/-- The named-field component view generated for `Xyz` by
`declare_color_components!` in `src/color.rs` (`struct XYZ { x, y, z }`). -/
structure XYZComponents (α : Type) where
  x : α
  y : α
  z : α
deriving DecidableEq

/-- The component view generated for `Yxy` (`struct YXY { x, y, luma }`). -/
structure YXYComponents (α : Type) where
  x : α
  y : α
  luma : α
deriving DecidableEq

/-- The component view generated for `Lab` (`struct LAB { l, a, b }`). -/
structure LABComponents (α : Type) where
  l : α
  a : α
  b : α
deriving DecidableEq

/-- `as_components` for `Xyz`: the `repr(C)` transmute of the 3-element
channel container reads field x/y/z from channel index 0/1/2. -/
def xyzAsComponents {α : Type} (ch : Fin 3 → α) : XYZComponents α :=
  ⟨ch 0, ch 1, ch 2⟩

/-- The channel container underlying an `XYZComponents` view: the inverse
reading of the same bytes. -/
def XYZComponents.toChannels {α : Type} (v : XYZComponents α) : Fin 3 → α :=
  ![v.x, v.y, v.z]

/-- `as_components` for `Yxy`. -/
def yxyAsComponents {α : Type} (ch : Fin 3 → α) : YXYComponents α :=
  ⟨ch 0, ch 1, ch 2⟩

/-- The channel container underlying a `YXYComponents` view. -/
def YXYComponents.toChannels {α : Type} (v : YXYComponents α) : Fin 3 → α :=
  ![v.x, v.y, v.luma]

/-- `as_components` for `Lab`. -/
def labAsComponents {α : Type} (ch : Fin 3 → α) : LABComponents α :=
  ⟨ch 0, ch 1, ch 2⟩

/-- The channel container underlying a `LABComponents` view. -/
def LABComponents.toChannels {α : Type} (v : LABComponents α) : Fin 3 → α :=
  ![v.l, v.a, v.b]

/-- Round a rational to the nearest integer, ties to even — the tie-breaking
rule of IEEE-754 round-to-nearest. -/
def roundNE (q : ℚ) : ℤ :=
  let f := ⌊q⌋
  if q - f < 1 / 2 then f
  else if 1 / 2 < q - f then f + 1
  else if f % 2 = 0 then f else f + 1

/-- Round a value to the nearest binary floating-point number with a p-bit
significand, ties to even — the IEEE-754 rounding applied by every Rust cast
and arithmetic operation on f32 (p = 24) and f64 (p = 53).  Exponent overflow
and subnormals lie outside the range exercised by the channel maps and are not
modelled. -/
def fl (p : ℕ) (q : ℚ) : ℚ :=
  if q = 0 then 0
  else
    (roundNE (q / (2 : ℚ) ^ (Int.log 2 |q| - ((p : ℤ) - 1)))) *
      (2 : ℚ) ^ (Int.log 2 |q| - ((p : ℤ) - 1))

/-- `src/channels.rs`, `impl_channel!` `into_float` with the IEEE rounding of
the paired float type made explicit: `self as $f`, `max_value() as $f` and the
product each round to nearest-even at precision p. -/
def IntChannel.into_float_ieee (T : IntChannel) (p : ℕ) (v : ℤ) : ℚ :=
  fl p (fl p (v : ℚ) * fl p (T.max : ℚ))

/-- `src/channels.rs`, `impl_channel!` `from_float` with the IEEE rounding of
the paired float type made explicit: `max_value() as $f` and the division
round at precision p, then the `as $t` cast truncates toward zero
(saturating). -/
def IntChannel.from_float_ieee (T : IntChannel) (p : ℕ) (f : ℚ) : ℤ :=
  satCast T.min T.max (fl p (f / fl p (T.max : ℚ)))

/-- Each built-in integer channel type with the significand precision of its
paired float type (f32 has 24 bits, f64 has 53), from `impl_channel!`:
8/16/32-bit types pair with f32, 64-bit and word-sized types with f64. -/
def builtinChannelPairs : List (IntChannel × ℕ) :=
  [(u8, 24), (u16, 24), (u32, 24), (u64, 53),
   (i8, 24), (i16, 24), (i32, 24), (i64, 53), (usize, 53), (isize, 53)]

/-! Theorems. -/

/-- Rounding to nearest-even fixes every integer. -/
theorem roundNE_intCast (m : ℤ) : roundNE (m : ℚ) = m := by
  unfold roundNE
  rw [Int.floor_intCast]
  norm_num

/-- `Int.log 2` is determined by the enclosing pair of powers of two. -/
theorem intLog2_eq_of {q : ℚ} {e : ℤ} (hq : 0 < q)
    (hlb : (2 : ℚ) ^ e ≤ q) (hub : q < (2 : ℚ) ^ (e + 1)) :
    Int.log 2 q = e := by
  have h1 : e ≤ Int.log 2 q := by
    rw [← Int.zpow_le_iff_le_log (by norm_num) hq]
    exact_mod_cast hlb
  have h2 : Int.log 2 q < e + 1 := by
    rw [← Int.lt_zpow_iff_log_lt (by norm_num) hq]
    exact_mod_cast hub
  omega

/-- Unfolding of `fl` once the binade of the input is known. -/
theorem fl_eq_of (p : ℕ) {q : ℚ} {e : ℤ} (hq : 0 < q)
    (hlb : (2 : ℚ) ^ e ≤ q) (hub : q < (2 : ℚ) ^ (e + 1)) :
    fl p q = (roundNE (q / (2 : ℚ) ^ (e - ((p : ℤ) - 1)))) *
      (2 : ℚ) ^ (e - ((p : ℤ) - 1)) := by
  unfold fl
  rw [if_neg hq.ne', abs_of_pos hq, intLog2_eq_of hq hlb hub]

/-- A positive integer below `2^p` is exactly representable at precision p:
`fl` fixes it. -/
theorem fl_intCast (p : ℕ) {n : ℤ} (h0 : 0 < n)
    (h1 : (n : ℚ) < (2 : ℚ) ^ (p : ℤ)) : fl p (n : ℚ) = n := by
  have hq : (0 : ℚ) < (n : ℚ) := by exact_mod_cast h0
  have hlb : (2 : ℚ) ^ Int.log 2 (n : ℚ) ≤ (n : ℚ) := by
    exact_mod_cast Int.zpow_log_le_self (b := 2) (by norm_num) hq
  have hub : (n : ℚ) < (2 : ℚ) ^ (Int.log 2 (n : ℚ) + 1) := by
    exact_mod_cast Int.lt_zpow_succ_log_self (b := 2) (by norm_num) (n : ℚ)
  have hep : Int.log 2 (n : ℚ) ≤ (p : ℤ) - 1 := by
    by_contra hcon
    push_neg at hcon
    have hmono : (2 : ℚ) ^ (p : ℤ) ≤ (2 : ℚ) ^ Int.log 2 (n : ℚ) :=
      zpow_le_zpow_right₀ one_le_two (by omega)
    exact absurd (hmono.trans hlb) (not_le.mpr h1)
  rw [fl_eq_of p hq hlb hub]
  have hs : ((p : ℤ) - 1 - Int.log 2 (n : ℚ)).toNat =
      ((p : ℤ) - 1 - Int.log 2 (n : ℚ)) := Int.toNat_of_nonneg (by omega)
  have hint : (n : ℚ) / (2 : ℚ) ^ (Int.log 2 (n : ℚ) - ((p : ℤ) - 1)) =
      ((n * 2 ^ ((p : ℤ) - 1 - Int.log 2 (n : ℚ)).toNat : ℤ) : ℚ) := by
    push_cast
    rw [← zpow_natCast (2 : ℚ) ((p : ℤ) - 1 - Int.log 2 (n : ℚ)).toNat, hs,
      div_eq_mul_inv, ← zpow_neg]
    ring_nf
  rw [hint, roundNE_intCast]
  push_cast
  rw [← zpow_natCast (2 : ℚ) ((p : ℤ) - 1 - Int.log 2 (n : ℚ)).toNat, hs,
    mul_assoc, ← zpow_add₀ (two_ne_zero (α := ℚ))]
  norm_num

/-- The IEEE round-trip for any integer channel at inputs where every step is
exact: v, MAX and the product v·MAX are integers representable in
the p-bit significand. -/
theorem roundtrip_exact (T : IntChannel) (p : ℕ) (hmin : T.min ≤ 0)
    (hmaxpos : 0 < T.max) (v : ℤ) (h0 : 0 ≤ v) (h1 : v ≤ T.max)
    (hmaxfit : (T.max : ℚ) < (2 : ℚ) ^ (p : ℤ))
    (hfit : (v : ℚ) * (T.max : ℚ) < (2 : ℚ) ^ (p : ℤ)) :
    T.from_float_ieee p (T.into_float_ieee p v) = v := by
  have hM : (T.max : ℚ) ≠ 0 := by
    exact_mod_cast hmaxpos.ne'
  have hflmax : fl p (T.max : ℚ) = T.max := fl_intCast p hmaxpos hmaxfit
  unfold IntChannel.into_float_ieee IntChannel.from_float_ieee
  rw [hflmax]
  obtain hv | hv := h0.lt_or_eq
  · have hvfit : ((v : ℚ)) < (2 : ℚ) ^ (p : ℤ) :=
      lt_of_le_of_lt (by exact_mod_cast h1) hmaxfit
    have hflv : fl p (v : ℚ) = v := fl_intCast p hv hvfit
    have hprod : fl p ((v : ℚ) * (T.max : ℚ)) = (v : ℚ) * (T.max : ℚ) := by
      have hpos : 0 < v * T.max := mul_pos hv hmaxpos
      have hlt : ((v * T.max : ℤ) : ℚ) < (2 : ℚ) ^ (p : ℤ) := by
        push_cast
        exact hfit
      have := fl_intCast p hpos hlt
      push_cast at this
      exact this
    rw [hflv, hprod, mul_div_cancel_right₀ _ hM, hflv]
    unfold satCast truncRat
    rw [if_pos (by exact_mod_cast h0), Int.floor_intCast,
      min_eq_right h1, max_eq_right (hmin.trans h0)]
  · rw [← hv]
    norm_num [fl, satCast, truncRat]
    omega

/-- Claim C1 (amended): for every built-in integer channel type with its
paired float precision, the round-trip `from_float(into_float(v))` with IEEE
round-to-nearest-even at each cast and operation reproduces v exactly
whenever `T::MAX` and the product `v·MAX` are exactly representable in the
paired significand — in particular over the full range of the 8-bit types.
For the wider types the casts round and the round-trip can fail. -/
theorem C1_int_roundtrip_representable (T : IntChannel) (p : ℕ)
    (hT : (T, p) ∈ builtinChannelPairs) (v : ℤ) (h0 : 0 ≤ v) (h1 : v ≤ T.max)
    (hmaxfit : (T.max : ℚ) < (2 : ℚ) ^ (p : ℤ))
    (hfit : (v : ℚ) * (T.max : ℚ) < (2 : ℚ) ^ (p : ℤ)) :
    T.from_float_ieee p (T.into_float_ieee p v) = v := by
  have hb : T.min ≤ 0 ∧ 0 < T.max := by
    fin_cases hT <;> exact ⟨by decide, by decide⟩
  exact roundtrip_exact T p hb.1 hb.2 v h0 h1 hmaxfit hfit

/-- Claim C1 (amended), witness: the IEEE round-trip at channel type u8,
precision 24, value 200. -/
theorem C1_int_roundtrip_representable_witness :
    (u8, 24) ∈ builtinChannelPairs ∧
      u8.from_float_ieee 24 (u8.into_float_ieee 24 200) = 200 :=
  ⟨by decide, C1_int_roundtrip_representable u8 24 (by decide) 200 (by decide)
    (by decide) (by norm_num [u8]) (by norm_num [u8])⟩

/-- Claim C1, counterexample: at channel type u32 (paired with f32, 24-bit
significand) and the in-range value 16777217 = 2^24 + 1, the IEEE round-trip
returns 16777216: the cast `16777217u32 as f32` already rounds to 16777216.0,
`u32::MAX as f32` rounds to 4294967296.0, and the recovered quotient truncates
to 16777216 ≠ 16777217, refuting the claim as stated. -/
theorem C1_u32_roundtrip_fails :
    (u32, 24) ∈ builtinChannelPairs ∧ (0 : ℤ) ≤ 16777217 ∧
      (16777217 : ℤ) ≤ u32.max ∧
      u32.from_float_ieee 24 (u32.into_float_ieee 24 16777217) = 16777216 ∧
      (16777216 : ℤ) ≠ 16777217 := by
  refine ⟨by decide, by decide, by decide, ?_, by decide⟩
  have hA : fl 24 (((16777217 : ℤ)) : ℚ) = 16777216 := by
    rw [show (((16777217 : ℤ)) : ℚ) = (16777217 : ℚ) by norm_num]
    rw [fl_eq_of 24 (e := 24) (by norm_num) (by norm_num) (by norm_num)]
    norm_num [roundNE]
  have hB : fl 24 ((u32.max : ℚ)) = 4294967296 := by
    rw [show ((u32.max : ℚ)) = (4294967295 : ℚ) by norm_num [u32]]
    rw [fl_eq_of 24 (e := 31) (by norm_num) (by norm_num) (by norm_num)]
    norm_num [roundNE]
  have hC : fl 24 (72057594037927936 : ℚ) = 72057594037927936 := by
    rw [fl_eq_of 24 (e := 56) (by norm_num) (by norm_num) (by norm_num)]
    norm_num [roundNE]
  have hD : fl 24 (16777216 : ℚ) = 16777216 := by
    rw [fl_eq_of 24 (e := 24) (by norm_num) (by norm_num) (by norm_num)]
    norm_num [roundNE]
  unfold IntChannel.into_float_ieee IntChannel.from_float_ieee
  rw [hA, hB,
    show (16777216 : ℚ) * 4294967296 = (72057594037927936 : ℚ) by norm_num,
    hC,
    show (72057594037927936 : ℚ) / 4294967296 = (16777216 : ℚ) by norm_num,
    hD]
  unfold satCast truncRat
  norm_num [u32]

/-- Claim C2 (evidence of the code bug): `into_float` for the u8 channel
evaluates to `v * 255`, so it sends 255 to 65025 and not to 1; the full
integer range lands in `[0, MAX^2]`, not in the canonical `[0, 1]` domain the
library's documentation and white-point constants assume. -/
theorem C2_into_float_off_domain :
    u8.into_float 255 = 65025 ∧ u8.into_float 255 ≠ 1 ∧ u8.into_float 0 = 0 := by
  norm_num [IntChannel.into_float, u8]

/-- Claim C3: Yxy to XYZ carries Y = luma unconditionally; when y is normal it
sets X = luma*x/y and Z = luma*(1 - x - y)/y, and otherwise leaves X = 0 and
Z = 0. -/
theorem C3_yxy_to_xyz (c : Yxy) :
    (xyzFromYxy c).y = c.luma ∧
      (isNormal c.y = true →
        (xyzFromYxy c).x = c.luma * c.x / c.y ∧
          (xyzFromYxy c).z = c.luma * (1 - c.x - c.y) / c.y) ∧
      (isNormal c.y = false →
        (xyzFromYxy c).x = 0 ∧ (xyzFromYxy c).z = 0) := by
  by_cases h : isNormal c.y <;> simp [xyzFromYxy, h]

/-- Claim C3, witness: the degenerate example Yxy(0.3, 0, 0.5) maps to
XYZ(0, 0.5, 0). -/
theorem C3_yxy_to_xyz_witness :
    (xyzFromYxy ⟨0.3, 0, 0.5⟩).x = 0 ∧ (xyzFromYxy ⟨0.3, 0, 0.5⟩).y = 0.5 ∧
      (xyzFromYxy ⟨0.3, 0, 0.5⟩).z = 0 := by
  obtain ⟨h1, -, h3⟩ := C3_yxy_to_xyz ⟨0.3, 0, 0.5⟩
  have h4 := h3 (by simp [isNormal])
  exact ⟨h4.1, h1, h4.2⟩

/-- Claim C4: XYZ to Yxy carries luma = Y unconditionally; with
sum = X + Y + Z, it sets x = X/sum and y = Y/sum when sum is normal and leaves
x = 0 and y = 0 otherwise. -/
theorem C4_xyz_to_yxy (c : Xyz) :
    (yxyFromXyz c).luma = c.y ∧
      (isNormal (c.x + c.y + c.z) = true →
        (yxyFromXyz c).x = c.x / (c.x + c.y + c.z) ∧
          (yxyFromXyz c).y = c.y / (c.x + c.y + c.z)) ∧
      (isNormal (c.x + c.y + c.z) = false →
        (yxyFromXyz c).x = 0 ∧ (yxyFromXyz c).y = 0) := by
  have hs : xyzSum c = c.x + c.y + c.z := by
    unfold xyzSum; ring
  by_cases h : isNormal (c.x + c.y + c.z) <;>
    simp [yxyFromXyz, hs, h]

/-- Claim C4, witness: the degenerate example XYZ(0, 0, 0) maps to
Yxy(0, 0, 0). -/
theorem C4_xyz_to_yxy_witness :
    yxyFromXyz ⟨0, 0, 0⟩ = ⟨0, 0, 0⟩ := by
  obtain ⟨h1, -, h3⟩ := C4_xyz_to_yxy ⟨0, 0, 0⟩
  have h4 := h3 (by simp [isNormal])
  rw [show (⟨0, 0, 0⟩ : Yxy) = ⟨0, 0, 0⟩ from rfl]
  cases he : yxyFromXyz ⟨0, 0, 0⟩
  rw [he] at h1 h4
  simp_all

/-- Claim C5: for float channels, if y is normal and the channel sum of the
produced XYZ color is normal, converting Yxy to XYZ and back reproduces the
original color exactly (floats embedded as exact rationals). -/
theorem C5_yxy_xyz_roundtrip (c : Yxy) (h1 : isNormal c.y = true)
    (h2 : isNormal (xyzSum (xyzFromYxy c)) = true) :
    yxyFromXyz (xyzFromYxy c) = c := by
  obtain ⟨cx, cy, cl⟩ := c
  simp only [isNormal, bne_iff_ne, ne_eq, decide_eq_true_eq] at h1
  have hxyz : xyzFromYxy ⟨cx, cy, cl⟩ =
      ⟨cl * cx / cy, cl, cl * (1 - cx - cy) / cy⟩ := by
    simp [xyzFromYxy, isNormal, h1]
  rw [hxyz] at h2 ⊢
  have hsum : xyzSum ⟨cl * cx / cy, cl, cl * (1 - cx - cy) / cy⟩ = cl / cy := by
    unfold xyzSum
    field_simp
    ring
  rw [hsum] at h2
  simp only [isNormal, bne_iff_ne, ne_eq, decide_eq_true_eq] at h2
  have hcl : cl ≠ 0 := by
    intro h
    exact h2 (by simp [h])
  have hnorm : isNormal (cl / cy) = true := by
    simp [isNormal, h2]
  unfold yxyFromXyz
  rw [hsum, if_pos hnorm]
  have e1 : cl * cx / cy / (cl / cy) = cx := by
    field_simp [h1, hcl]
    try ring
  have e2 : cl / (cl / cy) = cy := by
    field_simp [h1, hcl]
    try ring
  simp [e1, e2]

/-- Claim C5, witness: the round-trip at Yxy(1/3, 1/3, 1/2). -/
theorem C5_yxy_xyz_roundtrip_witness :
    yxyFromXyz (xyzFromYxy ⟨1 / 3, 1 / 3, 1 / 2⟩) = ⟨1 / 3, 1 / 3, 1 / 2⟩ :=
  C5_yxy_xyz_roundtrip ⟨1 / 3, 1 / 3, 1 / 2⟩ (by norm_num [isNormal])
    (by norm_num [xyzFromYxy, xyzSum, isNormal])

/-- Claim C6: all three Lab entry points are unconditional failures and never
return a Lab value. -/
theorem C6_lab_unimplemented :
    labDefault = none ∧ (∀ c : Xyz, labFromXyz c = none) ∧
      (∀ c : Yxy, labFromYxy c = none) :=
  ⟨rfl, fun _ => rfl, fun _ => rfl⟩

/-- Claim C7: for the float channel types f32 and f64, `into_float` and
`from_float` are the identity mapping. -/
theorem C7_float_identity (v : ℚ) :
    f32_into_float v = v ∧ f32_from_float v = v ∧
      f64_into_float v = v ∧ f64_from_float v = v :=
  ⟨rfl, rfl, rfl, rfl⟩

/-- Claim C7, witness: the identities at the concrete value 1/2. -/
theorem C7_float_identity_witness :
    f32_into_float (1 / 2) = 1 / 2 ∧ f32_from_float (1 / 2) = 1 / 2 ∧
      f64_into_float (1 / 2) = 1 / 2 ∧ f64_from_float (1 / 2) = 1 / 2 :=
  C7_float_identity (1 / 2)

/-- Claim C9: `D65::get_xyz()` with f64 channels returns exactly the stored
float literals (0.95047, 1.0, 1.08883). -/
theorem C9_d65_constants :
    WhitePoints.D65.get_xyz = ⟨0.95047, 1.0, 1.08883⟩ ∧
      WhitePoints.D65.get_xyz.x = 95047 / 100000 ∧
      WhitePoints.D65.get_xyz.y = 1 ∧
      WhitePoints.D65.get_xyz.z = 108883 / 100000 := by
  refine ⟨rfl, ?_, ?_, ?_⟩ <;> norm_num [WhitePoints.D65, WhitePointData.get_xyz]

/-- The component-view equivalence for `Xyz`: the view is determined by the
container (field x/y/z reads index 0/1/2), the container is recovered from the
view, and writes on either side agree. -/
theorem xyzView_equiv (α : Type) :
    (∀ ch : Fin 3 → α,
      (xyzAsComponents ch).toChannels = ch ∧
        xyzAsComponents ch = ⟨ch 0, ch 1, ch 2⟩) ∧
    (∀ v : XYZComponents α, xyzAsComponents v.toChannels = v) ∧
    (∀ (ch : Fin 3 → α) (a : α),
      ({ xyzAsComponents ch with x := a }).toChannels = Function.update ch 0 a ∧
      ({ xyzAsComponents ch with y := a }).toChannels = Function.update ch 1 a ∧
      ({ xyzAsComponents ch with z := a }).toChannels = Function.update ch 2 a ∧
      xyzAsComponents (Function.update ch 0 a) = { xyzAsComponents ch with x := a } ∧
      xyzAsComponents (Function.update ch 1 a) = { xyzAsComponents ch with y := a } ∧
      xyzAsComponents (Function.update ch 2 a) = { xyzAsComponents ch with z := a }) := by
  refine ⟨fun ch => ⟨?_, rfl⟩, fun v => rfl, fun ch a => ⟨?_, ?_, ?_, ?_, ?_, ?_⟩⟩ <;>
    first
      | (funext i
         fin_cases i <;>
           simp [xyzAsComponents, XYZComponents.toChannels, Function.update])
      | simp [xyzAsComponents, Function.update]

/-- The component-view equivalence for `Yxy` (field x/y/luma reads channel
index 0/1/2). -/
theorem yxyView_equiv (α : Type) :
    (∀ ch : Fin 3 → α,
      (yxyAsComponents ch).toChannels = ch ∧
        yxyAsComponents ch = ⟨ch 0, ch 1, ch 2⟩) ∧
    (∀ v : YXYComponents α, yxyAsComponents v.toChannels = v) ∧
    (∀ (ch : Fin 3 → α) (a : α),
      ({ yxyAsComponents ch with x := a }).toChannels = Function.update ch 0 a ∧
      ({ yxyAsComponents ch with y := a }).toChannels = Function.update ch 1 a ∧
      ({ yxyAsComponents ch with luma := a }).toChannels = Function.update ch 2 a ∧
      yxyAsComponents (Function.update ch 0 a) = { yxyAsComponents ch with x := a } ∧
      yxyAsComponents (Function.update ch 1 a) = { yxyAsComponents ch with y := a } ∧
      yxyAsComponents (Function.update ch 2 a) = { yxyAsComponents ch with luma := a }) := by
  refine ⟨fun ch => ⟨?_, rfl⟩, fun v => rfl, fun ch a => ⟨?_, ?_, ?_, ?_, ?_, ?_⟩⟩ <;>
    first
      | (funext i
         fin_cases i <;>
           simp [yxyAsComponents, YXYComponents.toChannels, Function.update])
      | simp [yxyAsComponents, Function.update]

/-- The component-view equivalence for `Lab` (field l/a/b reads channel
index 0/1/2). -/
theorem labView_equiv (α : Type) :
    (∀ ch : Fin 3 → α,
      (labAsComponents ch).toChannels = ch ∧
        labAsComponents ch = ⟨ch 0, ch 1, ch 2⟩) ∧
    (∀ v : LABComponents α, labAsComponents v.toChannels = v) ∧
    (∀ (ch : Fin 3 → α) (a : α),
      ({ labAsComponents ch with l := a }).toChannels = Function.update ch 0 a ∧
      ({ labAsComponents ch with a := a }).toChannels = Function.update ch 1 a ∧
      ({ labAsComponents ch with b := a }).toChannels = Function.update ch 2 a ∧
      labAsComponents (Function.update ch 0 a) = { labAsComponents ch with l := a } ∧
      labAsComponents (Function.update ch 1 a) = { labAsComponents ch with a := a } ∧
      labAsComponents (Function.update ch 2 a) = { labAsComponents ch with b := a }) := by
  refine ⟨fun ch => ⟨?_, rfl⟩, fun v => rfl, fun ch a => ⟨?_, ?_, ?_, ?_, ?_, ?_⟩⟩ <;>
    first
      | (funext i
         fin_cases i <;>
           simp [labAsComponents, LABComponents.toChannels, Function.update])
      | simp [labAsComponents, Function.update]

/-- Claim C8: for Xyz, Yxy and Lab at any channel type, the named-field
component view is equivalent to the channel container: fields 1/2/3 of the
view correspond to channel indices 0/1/2, the view and the container determine
each other, and a write through either side is observed on the other. -/
theorem C8_component_view (α : Type) :
    ((∀ ch : Fin 3 → α,
      (xyzAsComponents ch).toChannels = ch ∧
        xyzAsComponents ch = ⟨ch 0, ch 1, ch 2⟩) ∧
    (∀ v : XYZComponents α, xyzAsComponents v.toChannels = v) ∧
    (∀ (ch : Fin 3 → α) (a : α),
      ({ xyzAsComponents ch with x := a }).toChannels = Function.update ch 0 a ∧
      ({ xyzAsComponents ch with y := a }).toChannels = Function.update ch 1 a ∧
      ({ xyzAsComponents ch with z := a }).toChannels = Function.update ch 2 a ∧
      xyzAsComponents (Function.update ch 0 a) = { xyzAsComponents ch with x := a } ∧
      xyzAsComponents (Function.update ch 1 a) = { xyzAsComponents ch with y := a } ∧
      xyzAsComponents (Function.update ch 2 a) = { xyzAsComponents ch with z := a })) ∧
    ((∀ ch : Fin 3 → α,
      (yxyAsComponents ch).toChannels = ch ∧
        yxyAsComponents ch = ⟨ch 0, ch 1, ch 2⟩) ∧
    (∀ v : YXYComponents α, yxyAsComponents v.toChannels = v) ∧
    (∀ (ch : Fin 3 → α) (a : α),
      ({ yxyAsComponents ch with x := a }).toChannels = Function.update ch 0 a ∧
      ({ yxyAsComponents ch with y := a }).toChannels = Function.update ch 1 a ∧
      ({ yxyAsComponents ch with luma := a }).toChannels = Function.update ch 2 a ∧
      yxyAsComponents (Function.update ch 0 a) = { yxyAsComponents ch with x := a } ∧
      yxyAsComponents (Function.update ch 1 a) = { yxyAsComponents ch with y := a } ∧
      yxyAsComponents (Function.update ch 2 a) = { yxyAsComponents ch with luma := a })) ∧
    ((∀ ch : Fin 3 → α,
      (labAsComponents ch).toChannels = ch ∧
        labAsComponents ch = ⟨ch 0, ch 1, ch 2⟩) ∧
    (∀ v : LABComponents α, labAsComponents v.toChannels = v) ∧
    (∀ (ch : Fin 3 → α) (a : α),
      ({ labAsComponents ch with l := a }).toChannels = Function.update ch 0 a ∧
      ({ labAsComponents ch with a := a }).toChannels = Function.update ch 1 a ∧
      ({ labAsComponents ch with b := a }).toChannels = Function.update ch 2 a ∧
      labAsComponents (Function.update ch 0 a) = { labAsComponents ch with l := a } ∧
      labAsComponents (Function.update ch 1 a) = { labAsComponents ch with a := a } ∧
      labAsComponents (Function.update ch 2 a) = { labAsComponents ch with b := a })) :=
  ⟨xyzView_equiv α, yxyView_equiv α, labView_equiv α⟩

/-- Claim C10, counterexample: at channel type u8, the white-point constants
of D65 truncate to the integer triple (0, 1, 1), and `Yxy::default()` comes
out as the all-zero color (0, 0, 0) — the same channel data as
`Xyz::default()`. -/
theorem C10_u8_default_all_zero :
    yxyDefaultI u8 WhitePoints.D65 = some ⟨0, 0, 0⟩ ∧ xyzDefault = ⟨0, 0, 0⟩ := by
  constructor
  · norm_num [yxyDefaultI, getXyzI, numCast, truncRat, u8, yxyFromXyzI,
      xyzSumI, IntChannel.into_float, IntChannel.from_float, satCast, isNormal,
      WhitePoints.D65, Option.map, Option.bind]
  · rfl

/-- Claim C10 (amended): at float channel types, for every illuminant declared
in the source, `Yxy::default()` is not the all-zero color: its luma is zero
while (x, y) are the chromaticity of the converted white point — unlike
`Xyz::default()`, which is (0, 0, 0). -/
theorem C10_yxy_default (wp : WhitePointData) (h : wp ∈ declaredWhitePoints) :
    yxyDefault wp =
      ⟨(yxyFromXyz wp.get_xyz).x, (yxyFromXyz wp.get_xyz).y, 0⟩ ∧
      yxyDefault wp ≠ (⟨0, 0, 0⟩ : Yxy) ∧ xyzDefault = ⟨0, 0, 0⟩ := by
  refine ⟨rfl, ?_, rfl⟩
  fin_cases h <;>
    norm_num [yxyDefault, yxyFromXyz, xyzSum, isNormal,
      WhitePointData.get_xyz, Yxy.mk.injEq, WhitePoints.A, WhitePoints.B,
      WhitePoints.C, WhitePoints.D50, WhitePoints.D55, WhitePoints.D65,
      WhitePoints.D75, WhitePoints.E, WhitePoints.F2, WhitePoints.F7,
      WhitePoints.F11, WhitePoints.D50Degree10, WhitePoints.D55Degree10,
      WhitePoints.D65Degree10, WhitePoints.D75Degree10]

/-- Claim C10 (amended), witness: the default at D65 with float channels. -/
theorem C10_yxy_default_witness :
    yxyDefault WhitePoints.D65 =
      ⟨(yxyFromXyz WhitePoints.D65.get_xyz).x,
        (yxyFromXyz WhitePoints.D65.get_xyz).y, 0⟩ ∧
      yxyDefault WhitePoints.D65 ≠ (⟨0, 0, 0⟩ : Yxy) ∧
      xyzDefault = ⟨0, 0, 0⟩ :=
  C10_yxy_default WhitePoints.D65 (by simp [declaredWhitePoints])
